import Mathlib

/-!
Verification development for the crontask repository: a label-driven cron
scheduler for Docker containers.  The definitions below are a shallow
embedding of the Go source.  Strings are modelled as lists of characters
(Go byte/char indexing coincides with list indexing for the ASCII
delimiters involved).  Go run-time panics are modelled by explicit
out-of-range results or by Option-valued functions returning none.
-/

namespace Crontask

/-- Character for the single quote (avoids quote literals in this file). -/
def squote : Char := Char.ofNat 39

/-- Model of strings.HasPrefix from the Go standard library:
startsWithCL p s is true when p is a prefix of s. -/
def startsWithCL : List Char → List Char → Bool
  | [], _ => true
  | _ :: _, [] => false
  | a :: as, b :: bs => a == b && startsWithCL as bs

/-- Model of strings.Index: index of the first occurrence of needle in
hay, none when absent (Go returns -1). -/
def firstIdx (needle : List Char) : List Char → Option Nat
  | [] => if startsWithCL needle [] then some 0 else none
  | c :: t =>
      if startsWithCL needle (c :: t) then some 0
      else (firstIdx needle t).map (· + 1)

/-- Model of unicode.IsSpace from the Go standard library: the Unicode
White_Space code points, as enumerated in the Go unicode tables. -/
def goIsSpace (c : Char) : Bool :=
  let n := c.toNat
  (0x9 ≤ n && n ≤ 0xd) || n == 0x20 || n == 0x85 || n == 0xa0 ||
    n == 0x1680 || (0x2000 ≤ n && n ≤ 0x200a) || n == 0x2028 ||
    n == 0x2029 || n == 0x202f || n == 0x205f || n == 0x3000

/-- Helper for fieldsCL: cur accumulates the current (reversed) field. -/
def fieldsAux : List Char → List Char → List (List Char)
  | cur, [] => if cur.isEmpty then [] else [cur.reverse]
  | cur, c :: t =>
      if goIsSpace c then
        if cur.isEmpty then fieldsAux [] t
        else cur.reverse :: fieldsAux [] t
      else fieldsAux (c :: cur) t

/-- Model of strings.Fields: splits around runs of white space. -/
def fieldsCL (s : List Char) : List (List Char) := fieldsAux [] s

/-- The two-character open delimiter of a cron label key. -/
def openTok : List Char := ['(', squote]

/-- The two-character close delimiter of a cron label key. -/
def closeTok : List Char := [squote, ')']

/-- Result of DockerMonitor.parseCronExpression (pkg/docker/monitor.go).
The outOfBounds constructor models the Go run-time panic raised by the
slice expression labelKey[start+2:end] when end < start+2; the Go code
performs no check that the close delimiter occurs after the open one. -/
inductive CronParse where
  | ok (expr : List Char)
  | missingOpen
  | missingClose
  | invalidExpr (expr : List Char)
  | outOfBounds
deriving DecidableEq, Repr

/-- Shallow embedding of DockerMonitor.parseCronExpression
(pkg/docker/monitor.go lines 263-284): locate the first open and close
delimiters, slice the text strictly between them, and require at least
five white-space separated fields. -/
def parseCronExpression (labelKey : List Char) : CronParse :=
  match firstIdx openTok labelKey with
  | none => .missingOpen
  | some start =>
    match firstIdx closeTok labelKey with
    | none => .missingClose
    | some endIdx =>
      if endIdx < start + 2 then .outOfBounds
      else
        let cronExpr := (labelKey.take endIdx).drop (start + 2)
        if (fieldsCL cronExpr).length < 5 then .invalidExpr cronExpr
        else .ok cronExpr

/-- Model of docker.ContainerInfo (pkg/docker/monitor.go).  The labels
map is modelled as an association list; Go map iteration order is
unspecified, here it is the list order.  The image and creation-time
fields are never read by the operations under verification and are
omitted. -/
structure ContainerInfo where
  id : List Char
  name : List Char
  state : List Char
  labels : List (List Char × List Char)
deriving DecidableEq, Repr

/-- Model of types.CronJob (internal/types/logger.go).  The CreatedAt
wall-clock stamp is informational only and omitted. -/
structure CronJob where
  containerID : List Char
  containerName : List Char
  cronExpr : List Char
  task : List Char
  labelKey : List Char
  isActive : Bool
deriving DecidableEq, Repr

/-- The container state string that gates registration. -/
def runningL : List Char := "running".data

/-- Recursion over the label list for extractCronJobs.  A prefixed label
whose parse hits the slice-bounds panic aborts the whole extraction
(none models the Go run-time panic propagating out); a prefixed label
with an ordinary parse error is skipped with a warning; other labels are
ignored. -/
def extractFrom (pfx : List Char) (c : ContainerInfo) :
    List (List Char × List Char) → Option (List CronJob)
  | [] => some []
  | (labelKey, task) :: rest =>
      if startsWithCL pfx labelKey then
        match parseCronExpression labelKey with
        | .ok cronExpr =>
            (extractFrom pfx c rest).map (fun js =>
              { containerID := c.id
                containerName := c.name
                cronExpr := cronExpr
                task := task
                labelKey := labelKey
                isActive := c.state == runningL } :: js)
        | .outOfBounds => none
        | _ => extractFrom pfx c rest
      else extractFrom pfx c rest

/-- Shallow embedding of DockerMonitor.ExtractCronJobs
(pkg/docker/monitor.go lines 234-260). -/
def extractCronJobs (pfx : List Char) (c : ContainerInfo) :
    Option (List CronJob) :=
  extractFrom pfx c c.labels

/-- Model of job.DockerJob (internal/job/docker_job.go).  The monitor
pointer, last-run and next-run fields play no role in the verified
operations and are omitted.  cronEntryID is none until SetCronEntryID
runs (the Go zero value 0 is never issued as an entry id by the cron
library, whose ids start at 1). -/
structure DockerJob where
  id : List Char
  containerID : List Char
  name : List Char
  cronExpr : List Char
  task : List Char
  cronEntryID : Option Nat
deriving DecidableEq, Repr

/-- Shallow embedding of job.NewDockerJob (internal/job/docker_job.go
lines 193-208): the job id is the first 12 characters of the container
id, a dash, and the name argument.  The Go expression containerID[:12]
panics when the id is shorter than 12; theorems below quantify only over
ids of length at least 12. -/
def newDockerJob (containerID name cronExpr task : List Char) : DockerJob :=
  { id := containerID.take 12 ++ '-' :: name
    containerID := containerID
    name := name
    cronExpr := cronExpr
    task := task
    cronEntryID := none }

/-- Shallow embedding of DockerJob.Name (internal/job/docker_job.go
lines 229-231): the literal text docker- prepended to the job id. -/
def jobName (dj : DockerJob) : List Char := "docker-".data ++ dj.id

/-- The registry map from job id to job (job.JobRegistry.jobs), as an
association list; reachable states never hold two entries with one key. -/
abbrev Registry := List (List Char × DockerJob)

/-- Go map lookup on the registry. -/
def regLookup (reg : Registry) (k : List Char) : Option DockerJob :=
  match reg with
  | [] => none
  | p :: t => if p.1 = k then some p.2 else regLookup t k

/-- Shallow embedding of JobRegistry.AddJob (internal/job/docker_job.go
lines 275-285): refuse when the job id is present, otherwise insert. -/
def addJob (reg : Registry) (j : DockerJob) : Bool × Registry :=
  if (regLookup reg j.id).isSome then (false, reg)
  else (true, reg ++ [(j.id, j)])

/-- Shallow embedding of JobRegistry.RemoveJob (internal/job/docker_job.go
lines 287-297): delete the entry keyed by jobID when present. -/
def removeJob (reg : Registry) (jobID : List Char) : Bool × Registry :=
  if (regLookup reg jobID).isSome then
    (true, reg.filter (fun p => !(p.1 = jobID : Bool)))
  else (false, reg)

/-- Shallow embedding of JobRegistry.RemoveJobsByContainer
(internal/job/docker_job.go lines 299-312): delete every job of the
container and return the removed job ids. -/
def removeJobsByContainer (reg : Registry) (containerID : List Char) :
    List (List Char) × Registry :=
  ((reg.filter (fun p => (p.2.containerID = containerID : Bool))).map
      Prod.fst,
    reg.filter (fun p => !(p.2.containerID = containerID : Bool)))

/-- Modelled from the spec: the Cron Dispatcher state (the robfig/cron
library, an external dependency not in this repository).  Per the spec
an entry created by schedule stays live until unschedule is called on
its handle; AddFunc parses the schedule text and on success installs an
entry under a fresh handle (ids are issued 1, 2, ...). -/
structure CronSched where
  entries : List (Nat × List Char)
  nextID : Nat
deriving DecidableEq, Repr

/-- Modelled from the spec: cron.AddFunc of the external dispatcher.
The parser itself is abstracted as the accepts predicate; on acceptance
a fresh entry id is issued and the entry installed, on rejection an
error is returned and no entry is created. -/
def cronAddFunc (accepts : List Char → Bool) (cs : CronSched)
    (spec : List Char) : Except Unit (Nat × CronSched) :=
  if accepts spec then
    .ok (cs.nextID + 1,
      { entries := cs.entries ++ [(cs.nextID + 1, spec)]
        nextID := cs.nextID + 1 })
  else .error ()

/-- The mutable state touched by Worker event processing: the job
registry and the cron scheduler. -/
structure WorkerState where
  registry : Registry
  cron : CronSched
deriving DecidableEq, Repr

/-- Loop body of Worker.registerContainerJobs (internal/worker/worker.go
lines 126-158): for each extracted cron job, build the DockerJob, try
AddJob; on success call cron.AddFunc, and either store the entry id on
the registered job (SetCronEntryID acts through the shared pointer) or
roll back with RemoveJob applied to the Name() string. -/
def registerLoop (accepts : List Char → Bool) :
    List CronJob → WorkerState → WorkerState
  | [], s => s
  | cj :: rest, s =>
      let dj := newDockerJob cj.containerID cj.containerName cj.cronExpr
        cj.task
      let a := addJob s.registry dj
      if a.1 then
        match cronAddFunc accepts s.cron cj.cronExpr with
        | .error _ =>
            let r := removeJob a.2 (jobName dj)
            registerLoop accepts rest { registry := r.2, cron := s.cron }
        | .ok (entryID, cron2) =>
            let reg2 := a.2.map (fun p =>
              if p.1 = dj.id then (p.1, { p.2 with cronEntryID := some entryID })
              else p)
            registerLoop accepts rest { registry := reg2, cron := cron2 }
      else registerLoop accepts rest { s with registry := a.2 }

/-- Shallow embedding of Worker.registerContainerJobs
(internal/worker/worker.go lines 117-159): first remove every job the
container owns, then extract and register fresh jobs.  none models the
worker crashing on the extraction panic. -/
def registerContainerJobs (accepts : List Char → Bool) (pfx : List Char)
    (c : ContainerInfo) (s : WorkerState) : Option WorkerState :=
  let reg0 := (removeJobsByContainer s.registry c.id).2
  match extractCronJobs pfx c with
  | none => none
  | some cjs => some (registerLoop accepts cjs { s with registry := reg0 })

/-- Shallow embedding of Worker.unregisterContainerJobs
(internal/worker/worker.go lines 161-173): remove the container's jobs
from the registry and return their ids.  The Go code removes nothing
from the cron scheduler here (its comment asserts entries are removed
automatically, but no cron.Remove call exists in the repository). -/
def unregisterContainerJobs (cid : List Char) (s : WorkerState) :
    List (List Char) × WorkerState :=
  let r := removeJobsByContainer s.registry cid
  (r.1, { s with registry := r.2 })

/-- Action strings of the Docker event switch. -/
def actScan : List Char := "scan".data

/-- Action string for container creation events. -/
def actCreate : List Char := "create".data

/-- Action string for container start events. -/
def actStart : List Char := "start".data

/-- Action string for container update events. -/
def actUpdate : List Char := "update".data

/-- Action string for container death events. -/
def actDie : List Char := "die".data

/-- Action string for container destruction events. -/
def actDestroy : List Char := "destroy".data

/-- Model of docker.ContainerEvent (pkg/docker/monitor.go). -/
structure ContainerEvent where
  action : List Char
  containerID : List Char
  container : ContainerInfo
deriving DecidableEq, Repr

/-- Shallow embedding of Worker.processDockerEvent
(internal/worker/worker.go lines 106-115): lifecycle actions with a
running snapshot re-register, death actions unregister, anything else is
ignored. -/
def processDockerEvent (accepts : List Char → Bool) (pfx : List Char)
    (ev : ContainerEvent) (s : WorkerState) : Option WorkerState :=
  if ev.action = actScan ∨ ev.action = actCreate ∨ ev.action = actStart ∨
      ev.action = actUpdate then
    if ev.container.state = runningL then
      registerContainerJobs accepts pfx ev.container s
    else some s
  else if ev.action = actDie ∨ ev.action = actDestroy then
    some (unregisterContainerJobs ev.containerID s).2
  else some s

/-- The jobs a registry holds for one container. -/
def jobsForContainer (reg : Registry) (cid : List Char) : Registry :=
  reg.filter (fun p => (p.2.containerID = cid : Bool))

/-- Registry projection used by the idempotence claim: job id, container
id, schedule text and command of every entry, dispatcher handles
excluded. -/
def regProj (reg : Registry) :
    List (List Char × List Char × List Char × List Char) :=
  reg.map (fun p => (p.1, p.2.containerID, p.2.cronExpr, p.2.task))

/-- The configured default label marker of the repository
(internal/config/config.go). -/
def defaultPfx : List Char := "crontask.".data

/-- Model of a Go error value: either an underlying cause from the
docker client library, or a wrapping error produced with the percent-w
verb of fmt.Errorf. -/
inductive GoErr where
  | cause (msg : List Char)
  | wrap (msg : List Char) (inner : GoErr)
deriving DecidableEq, Repr

/-- inChain target e is true when target occurs in the unwrap chain of
e (e itself included). -/
def inChain (target : GoErr) : GoErr → Bool
  | .cause m => decide (GoErr.cause m = target)
  | .wrap m inner => decide (GoErr.wrap m inner = target) || inChain target inner

/-- The environment a connection attempt runs against: for each host
string, whether client construction fails, and whether the subsequent
liveness ping fails (none means success). -/
structure DockerEnv where
  newClientErr : List Char → Option GoErr
  pingErr : List Char → Option GoErr

/-- The fallback socket list of tryAlternativeSocketPaths
(src/unnamed/part_000 lines 36-45), verbatim and in order. -/
def alternativePaths : List (List Char) :=
  ["npipe:////./pipe/docker_engine".data,
   ("unix://" ++ "\\\\wsl$\\docker-desktop-data\\version-pack-data\\community\\docker\\docker.sock").data,
   ("unix://" ++ "\\\\wsl.localhost\\docker-desktop-data\\version-pack-data\\community\\docker\\docker.sock").data,
   "unix:///var/run/docker.sock".data,
   "unix:///var/run/docker.sock".data]

/-- Message of the final wrap in tryAlternativeSocketPaths. -/
def tryFailMsg : List Char :=
  "failed to connect to Docker using any socket path. Last error:".data

/-- Message of the client-construction wrap in NewMonitor. -/
def createFailMsg : List Char := "failed to create docker client:".data

/-- Message of the connect wrap in NewMonitor. -/
def connectFailMsg : List Char := "failed to connect to Docker:".data

/-- Loop of tryAlternativeSocketPaths (src/unnamed/part_000 lines
47-73): walk the candidate paths, remembering the last failure cause;
a candidate succeeds only when construction and ping both succeed.  On
exhaustion the last cause is wrapped (lastErr cannot be nil for the
nonempty concrete list; the bare-message cause models that corner). -/
def tryLoop (env : DockerEnv) :
    List (List Char) → Option GoErr → Except GoErr (List Char)
  | [], last =>
      .error (match last with
        | some e => .wrap tryFailMsg e
        | none => .cause tryFailMsg)
  | p :: rest, _last =>
      match env.newClientErr p with
      | some e => tryLoop env rest (some e)
      | none =>
          match env.pingErr p with
          | some e => tryLoop env rest (some e)
          | none => .ok p

/-- Shallow embedding of tryAlternativeSocketPaths. -/
def tryAlternativeSocketPaths (env : DockerEnv) : Except GoErr (List Char) :=
  tryLoop env alternativePaths none

/-- Model of getDefaultSocketPath (src/unnamed/part_000 lines 13-32),
parameterized by the runtime.GOOS string. -/
def getDefaultSocketPath (goos : List Char) : List Char :=
  if goos = "windows".data then "npipe:////./pipe/docker_engine".data
  else if goos = "darwin".data then "unix:///var/run/docker.sock".data
  else "unix:///var/run/docker.sock".data

/-- The host NewMonitor tries first for a given configuration: the
configured socket, or the platform default when none is configured. -/
def firstHost (goos socketPath : List Char) : List Char :=
  if socketPath.isEmpty then getDefaultSocketPath goos
  else "unix://".data ++ socketPath

/-- Shallow embedding of docker.NewMonitor (pkg/docker/monitor.go lines
42-84), reduced to its connection outcome: construct a client for the
configured socket (or the platform default), ping it, and on ping
failure fall back to the alternative path walk.  A construction failure
on the first candidate is returned at once, fallbacks untried.  The ok
payload is the host the returned client is connected to. -/
def newMonitorConnect (env : DockerEnv) (goos socketPath : List Char) :
    Except GoErr (List Char) :=
  match env.newClientErr (firstHost goos socketPath) with
  | some e => .error (.wrap createFailMsg e)
  | none =>
      match env.pingErr (firstHost goos socketPath) with
      | none => .ok (firstHost goos socketPath)
      | some _ =>
          match tryAlternativeSocketPaths env with
          | .ok p => .ok p
          | .error e => .error (.wrap connectFailMsg e)

/-- The failure cause one candidate host reports: the construction
error when construction fails, otherwise the ping error; none when the
attempt succeeds. -/
def attemptCause (env : DockerEnv) (p : List Char) : Option GoErr :=
  match env.newClientErr p with
  | some e => some e
  | none => env.pingErr p

/-- The cause reported by the last candidate attempted when every
candidate fails: the first host's construction error short-circuits the
walk, otherwise the walk ends at the last fallback path. -/
def lastAttemptedCause (env : DockerEnv) (goos socketPath : List Char) :
    Option GoErr :=
  match env.newClientErr (firstHost goos socketPath) with
  | some e => some e
  | none => attemptCause env ("unix:///var/run/docker.sock".data)

/-- A dispatcher parser model accepting every schedule text. -/
def acceptsAll : List Char → Bool := fun _ => true

/-- A five-field schedule text. -/
def spec5 : List Char := "* * * * *".data

/-- Another five-field schedule text. -/
def spec5b : List Char := "0 * * * *".data

/-- A four-field schedule text. -/
def spec4 : List Char := "* * * *".data

/-- A well-formed default-prefixed label key carrying spec5. -/
def key5 : List Char :=
  "crontask.cronjob".data ++ openTok ++ spec5 ++ closeTok ++ ".task".data

/-- A well-formed default-prefixed label key carrying spec5b. -/
def key0 : List Char :=
  "crontask.cronjob".data ++ openTok ++ spec5b ++ closeTok ++ ".task".data

/-- A well-formed default-prefixed label key carrying the four-field
text spec4. -/
def key4 : List Char :=
  "crontask.cronjob".data ++ openTok ++ spec4 ++ closeTok ++ ".task".data

/-- A prefixed label key with no open delimiter. -/
def keyNoOpen : List Char := "crontask.cronjob.task".data

/-- A prefixed label key with an open delimiter but no close delimiter. -/
def keyNoClose : List Char := "crontask.cronjob".data ++ openTok ++ spec5

/-- A prefixed label key whose close delimiter precedes its open
delimiter. -/
def keySwapped : List Char :=
  "crontask.cronjob".data ++ closeTok ++ "x".data ++ openTok ++ ".task".data

/-- A 24-character container id. -/
def idA : List Char := "abcdefabcdefabcdefabcdef".data

/-- A running container declaring two well-formed cron labels. -/
def contA : ContainerInfo :=
  { id := idA
    name := "web".data
    state := runningL
    labels := [(key5, "echo hi".data), (key0, "echo bye".data)] }

/-- A running container declaring the swapped-delimiter label. -/
def contSwapped : ContainerInfo :=
  { id := idA
    name := "web".data
    state := runningL
    labels := [(keySwapped, "boom".data)] }

/-- The empty worker state. -/
def emptyState : WorkerState :=
  { registry := [], cron := { entries := [], nextID := 0 } }

/-- A start event announcing contA. -/
def evStartA : ContainerEvent :=
  { action := actStart, containerID := idA, container := contA }

/-- A die event for contA. -/
def evDieA : ContainerEvent :=
  { action := actDie, containerID := idA, container := contA }

/-- A registered and scheduled job of contA holding dispatcher handle 1. -/
def djA : DockerJob :=
  { newDockerJob idA ("web".data) spec5 ("echo hi".data) with
      cronEntryID := some 1 }

/-- A worker state holding djA in the registry and its dispatcher entry
under handle 1. -/
def sC2 : WorkerState :=
  { registry := [(djA.id, djA)]
    cron := { entries := [(1, spec5)], nextID := 1 } }

/-- A dispatcher parser model rejecting every schedule text. -/
def acceptsNone : List Char → Bool := fun _ => false

/-- The cron jobs extracted from contA. -/
def cjsA : List CronJob := (extractCronJobs defaultPfx contA).getD []

/-- The first cron job extracted from contA. -/
def cjA : CronJob :=
  cjsA.headD
    { containerID := [], containerName := [], cronExpr := [], task := []
      labelKey := [], isActive := false }

/-- The remaining cron jobs extracted from contA. -/
def restA : List CronJob := cjsA.tail

/-- A connection environment in which every client constructs but every
liveness ping fails, reporting the probed path as the cause. -/
def envW : DockerEnv :=
  { newClientErr := fun _ => none
    pingErr := fun p => some (.cause p) }

/-- The job id newDockerJob derives from one extracted cron job. -/
def mkJobId (cj : CronJob) : List Char :=
  cj.containerID.take 12 ++ '-' :: cj.containerName

end Crontask

namespace Crontask

theorem regLookup_eq_none_iff :
    ∀ (reg : Registry) (k : List Char),
      regLookup reg k = none ↔ ∀ p ∈ reg, p.1 ≠ k
  | [], k => by simp [regLookup]
  | p :: t, k => by
      by_cases h : p.1 = k
      · constructor
        · intro hl; rw [regLookup, if_pos h] at hl; cases hl
        · intro hall; exact absurd h (hall p (List.mem_cons_self p t))
      · rw [regLookup, if_neg h]
        constructor
        · intro hl q hq
          rcases List.mem_cons.mp hq with rfl | hq2
          · exact h
          · exact (regLookup_eq_none_iff t k).mp hl q hq2
        · intro hall
          exact (regLookup_eq_none_iff t k).mpr
            fun q hq => hall q (List.mem_cons_of_mem p hq)

theorem regLookup_append_none {k : List Char} :
    ∀ {l1 : Registry}, regLookup l1 k = none → ∀ l2 : Registry,
      regLookup (l1 ++ l2) k = regLookup l2 k
  | [], _, l2 => by simp
  | p :: t, h, l2 => by
      by_cases hk : p.1 = k
      · rw [regLookup, if_pos hk] at h; cases h
      · rw [regLookup, if_neg hk] at h
        rw [List.cons_append, regLookup, if_neg hk]
        exact regLookup_append_none h l2

theorem regLookup_of_append_none_left {l1 l2 : Registry} {k : List Char}
    (h : regLookup (l1 ++ l2) k = none) : regLookup l1 k = none := by
  rw [regLookup_eq_none_iff] at h ⊢
  exact fun p hp => h p (List.mem_append_left _ hp)

theorem regLookup_filter_none {reg : Registry} {k : List Char}
    (h : regLookup reg k = none) (q : List Char × DockerJob → Bool) :
    regLookup (reg.filter q) k = none := by
  rw [regLookup_eq_none_iff] at h ⊢
  exact fun p hp => h p (List.mem_of_mem_filter hp)

theorem filter_ne_key_eq_self {reg : Registry} {k : List Char}
    (h : regLookup reg k = none) :
    reg.filter (fun p => !(p.1 = k : Bool)) = reg := by
  rw [regLookup_eq_none_iff] at h
  refine List.filter_eq_self.mpr fun p hp => ?_
  simpa using h p hp

theorem map_entry_update_eq_self (e : Nat) (k : List Char) :
    ∀ reg : Registry, (∀ p ∈ reg, p.1 ≠ k) →
      (reg.map (fun p =>
        if p.1 = k then (p.1, { p.2 with cronEntryID := some e }) else p)) = reg
  | [], _ => rfl
  | p :: t, h => by
      have hp : p.1 ≠ k := h p (List.mem_cons_self p t)
      have ht : ∀ q ∈ t, q.1 ≠ k := fun q hq => h q (List.mem_cons_of_mem p hq)
      simp [hp, map_entry_update_eq_self e k t ht]

theorem append_left_ne {m : List Char} (hm : m ≠ []) (l : List Char) :
    m ++ l ≠ l := by
  intro h
  have hlen := congrArg List.length h
  simp only [List.length_append] at hlen
  have : m.length = 0 := by omega
  exact hm (List.length_eq_zero.mp this)

theorem filter_idem {α : Type} (q : α → Bool) (l : List α) :
    (l.filter q).filter q = l.filter q := by
  induction l with
  | nil => rfl
  | cons a t ih =>
      by_cases h : q a = true
      · simp [List.filter_cons, h, ih]
      · simp [List.filter_cons, h, ih]

theorem filter_comm {α : Type} (p q : α → Bool) (l : List α) :
    (l.filter q).filter p = (l.filter p).filter q := by
  induction l with
  | nil => rfl
  | cons a t ih =>
      by_cases hp : p a = true <;> by_cases hq : q a = true <;>
        simp [List.filter_cons, hp, hq, ih]

theorem jobsForContainer_filterOut (reg : Registry) (cid : List Char) :
    jobsForContainer
      (reg.filter (fun p => !(p.2.containerID = cid : Bool))) cid = [] := by
  induction reg with
  | nil => rfl
  | cons p t ih =>
      by_cases h : p.2.containerID = cid
      · simp only [jobsForContainer, List.filter_cons, h] at ih ⊢
        simp [ih]
      · simp only [jobsForContainer, List.filter_cons, h] at ih ⊢
        simp [h, ih]

theorem extractFrom_mem (pfx : List Char) (c : ContainerInfo) :
    ∀ (ls : List (List Char × List Char)) (cjs : List CronJob),
      extractFrom pfx c ls = some cjs →
      ∀ cj ∈ cjs, cj.containerID = c.id ∧ cj.containerName = c.name := by
  intro ls
  induction ls with
  | nil =>
      intro cjs h
      simp only [extractFrom, Option.some.injEq] at h
      simp [← h]
  | cons kv rest ih =>
      intro cjs h
      obtain ⟨labelKey, task⟩ := kv
      simp only [extractFrom] at h
      by_cases hpr : startsWithCL pfx labelKey = true
      · rw [if_pos hpr] at h
        cases hp : parseCronExpression labelKey with
        | ok expr =>
            rw [hp] at h
            obtain ⟨js, hjs, rfl⟩ := Option.map_eq_some'.mp h
            intro cj hcj
            rcases List.mem_cons.mp hcj with hhd | htl
            · subst hhd; exact ⟨rfl, rfl⟩
            · exact ih js hjs cj htl
        | outOfBounds => rw [hp] at h; exact absurd h (by simp)
        | missingOpen => rw [hp] at h; exact ih cjs h
        | missingClose => rw [hp] at h; exact ih cjs h
        | invalidExpr e => rw [hp] at h; exact ih cjs h
      · rw [if_neg hpr] at h
        exact ih cjs h

theorem newDockerJob_id (cj : CronJob) :
    (newDockerJob cj.containerID cj.containerName cj.cronExpr cj.task).id =
      mkJobId cj := rfl

theorem registerLoop_skip (accepts : List Char → Bool) (jid : List Char) :
    ∀ (cjs : List CronJob) (s : WorkerState),
      (∀ cj ∈ cjs, mkJobId cj = jid) →
      (regLookup s.registry jid).isSome = true →
      registerLoop accepts cjs s = s
  | [], _, _, _ => rfl
  | cj :: rest, s, hall, hsome => by
      have hid : mkJobId cj = jid := hall cj (List.mem_cons_self cj rest)
      have hsome2 : (regLookup s.registry
          (newDockerJob cj.containerID cj.containerName cj.cronExpr
            cj.task).id).isSome = true := by
        rw [newDockerJob_id, hid]; exact hsome
      have htail : ∀ x ∈ rest, mkJobId x = jid :=
        fun x hx => hall x (List.mem_cons_of_mem cj hx)
      rw [registerLoop]
      simp only [addJob, hsome2, if_true]
      exact registerLoop_skip accepts jid rest s htail hsome

theorem registerLoop_cons_ok (accepts : List Char → Bool) (jid : List Char)
    (cj : CronJob) (rest : List CronJob) (s : WorkerState)
    (hall : ∀ x ∈ cj :: rest, mkJobId x = jid)
    (hnone : regLookup s.registry jid = none)
    (hacc : accepts cj.cronExpr = true) :
    registerLoop accepts (cj :: rest) s =
      { registry := s.registry ++
          [(jid, { newDockerJob cj.containerID cj.containerName cj.cronExpr
              cj.task with cronEntryID := some (s.cron.nextID + 1) })]
        cron := { entries := s.cron.entries ++ [(s.cron.nextID + 1, cj.cronExpr)]
                  nextID := s.cron.nextID + 1 } } := by
  have hid : mkJobId cj = jid := hall cj (List.mem_cons_self cj rest)
  have htail : ∀ x ∈ rest, mkJobId x = jid :=
    fun x hx => hall x (List.mem_cons_of_mem cj hx)
  have hnone2 : regLookup s.registry
      (newDockerJob cj.containerID cj.containerName cj.cronExpr
        cj.task).id = none := by
    rw [newDockerJob_id, hid]; exact hnone
  have hkeys : ∀ p ∈ s.registry, p.1 ≠ jid :=
    (regLookup_eq_none_iff s.registry jid).mp hnone
  have hid2 : (newDockerJob cj.containerID cj.containerName cj.cronExpr
      cj.task).id = jid := by rw [newDockerJob_id]; exact hid
  have hkeys2 : ∀ p ∈ s.registry, p.1 ≠
      (newDockerJob cj.containerID cj.containerName cj.cronExpr cj.task).id := by
    rw [hid2]; exact hkeys
  rw [registerLoop]
  simp only [addJob, hnone2, Option.isSome_none, Bool.false_eq_true, if_false,
    cronAddFunc, hacc, if_true]
  rw [List.map_append, map_entry_update_eq_self _ _ _ hkeys2]
  simp only [List.map_cons, List.map_nil]
  rw [if_pos trivial]
  rw [registerLoop_skip accepts jid rest _ htail (by
    show (regLookup (s.registry ++ _) jid).isSome = true
    rw [regLookup_append_none hnone, regLookup, if_pos hid2]
    rfl)]
  rw [hid2]

theorem regLookup_append_some {l1 : Registry} {k : List Char} {x : DockerJob} :
    regLookup l1 k = some x → ∀ l2 : Registry,
      regLookup (l1 ++ l2) k = some x := by
  induction l1 with
  | nil => intro h; cases h
  | cons p t ih =>
      intro h l2
      by_cases hk : p.1 = k
      · rw [regLookup, if_pos hk] at h
        rw [List.cons_append, regLookup, if_pos hk]
        exact h
      · rw [regLookup, if_neg hk] at h
        rw [List.cons_append, regLookup, if_neg hk]
        exact ih h l2

theorem registerLoop_cons_fail (accepts : List Char → Bool) (jid : List Char)
    (cj : CronJob) (rest : List CronJob) (s : WorkerState)
    (hall : ∀ x ∈ cj :: rest, mkJobId x = jid)
    (hnone : regLookup s.registry jid = none)
    (haccF : accepts cj.cronExpr = false) :
    registerLoop accepts (cj :: rest) s =
      { registry := s.registry.filter
            (fun p => !(p.1 = jobName (newDockerJob cj.containerID
              cj.containerName cj.cronExpr cj.task) : Bool)) ++
          [(jid, newDockerJob cj.containerID cj.containerName cj.cronExpr
            cj.task)]
        cron := s.cron } := by
  have hid : mkJobId cj = jid := hall cj (List.mem_cons_self cj rest)
  have htail : ∀ x ∈ rest, mkJobId x = jid :=
    fun x hx => hall x (List.mem_cons_of_mem cj hx)
  have hid2 : (newDockerJob cj.containerID cj.containerName cj.cronExpr
      cj.task).id = jid := by rw [newDockerJob_id]; exact hid
  have hnone2 : regLookup s.registry
      (newDockerJob cj.containerID cj.containerName cj.cronExpr
        cj.task).id = none := by rw [hid2]; exact hnone
  have hne : (newDockerJob cj.containerID cj.containerName cj.cronExpr
      cj.task).id ≠ jobName (newDockerJob cj.containerID cj.containerName
        cj.cronExpr cj.task) := by
    rw [jobName]
    intro h
    exact append_left_ne (by decide)
      (newDockerJob cj.containerID cj.containerName cj.cronExpr cj.task).id
      h.symm
  have hsingle : regLookup [((newDockerJob cj.containerID cj.containerName
      cj.cronExpr cj.task).id, newDockerJob cj.containerID cj.containerName
      cj.cronExpr cj.task)]
      (jobName (newDockerJob cj.containerID cj.containerName cj.cronExpr
        cj.task)) = none := by
    rw [regLookup, if_neg hne]; rfl
  rw [registerLoop]
  simp only [addJob, hnone2, Option.isSome_none, Bool.false_eq_true, if_false,
    cronAddFunc, haccF]
  by_cases hD : (regLookup s.registry (jobName (newDockerJob cj.containerID
      cj.containerName cj.cronExpr cj.task))).isSome = true
  · obtain ⟨x, hx⟩ := Option.isSome_iff_exists.mp hD
    have hDw : regLookup (s.registry ++ [((newDockerJob cj.containerID
        cj.containerName cj.cronExpr cj.task).id, newDockerJob cj.containerID
        cj.containerName cj.cronExpr cj.task)])
        (jobName (newDockerJob cj.containerID cj.containerName cj.cronExpr
          cj.task)) = some x := regLookup_append_some hx _
    simp only [removeJob, hDw, Option.isSome_some, if_true,
      List.filter_append, List.filter_cons, List.filter_nil]
    have hq : (!((newDockerJob cj.containerID cj.containerName cj.cronExpr
        cj.task).id = jobName (newDockerJob cj.containerID cj.containerName
          cj.cronExpr cj.task) : Bool)) = true := by
      rw [decide_eq_false hne]
      rfl
    rw [if_pos hq]
    rw [registerLoop_skip accepts jid rest _ htail (by
      show (regLookup (List.filter _ s.registry ++ _) jid).isSome = true
      rw [regLookup_append_none (regLookup_filter_none hnone _), regLookup,
        if_pos hid2]
      rfl)]
    rw [hid2]
  · have hDn : regLookup s.registry (jobName (newDockerJob cj.containerID
        cj.containerName cj.cronExpr cj.task)) = none :=
      Option.not_isSome_iff_eq_none.mp (by simpa using hD)
    have hDw : regLookup (s.registry ++ [((newDockerJob cj.containerID
        cj.containerName cj.cronExpr cj.task).id, newDockerJob cj.containerID
        cj.containerName cj.cronExpr cj.task)])
        (jobName (newDockerJob cj.containerID cj.containerName cj.cronExpr
          cj.task)) = none := by
      rw [regLookup_append_none hDn]; exact hsingle
    simp only [removeJob, hDw, Option.isSome_none, Bool.false_eq_true, if_false]
    rw [filter_ne_key_eq_self hDn]
    rw [registerLoop_skip accepts jid rest _ htail (by
      show (regLookup (s.registry ++ _) jid).isSome = true
      rw [regLookup_append_none hnone, regLookup, if_pos hid2]
      rfl)]
    rw [hid2]
    rw [if_pos trivial]

theorem removeJobsByContainer_snd (reg : Registry) (cid : List Char) :
    (removeJobsByContainer reg cid).2 =
      reg.filter (fun p => !(p.2.containerID = cid : Bool)) := rfl

theorem registerLoop_nil (accepts : List Char → Bool) (s : WorkerState) :
    registerLoop accepts [] s = s := rfl

theorem regProj_append (l1 l2 : Registry) :
    regProj (l1 ++ l2) = regProj l1 ++ regProj l2 := List.map_append _ _ _

theorem processDockerEvent_register (accepts : List Char → Bool)
    (pfx : List Char) (ev : ContainerEvent) (s : WorkerState)
    (hact : ev.action = actScan ∨ ev.action = actCreate ∨
      ev.action = actStart ∨ ev.action = actUpdate)
    (hrun : ev.container.state = runningL) :
    processDockerEvent accepts pfx ev s =
      registerContainerJobs accepts pfx ev.container s := by
  rw [processDockerEvent, if_pos hact, if_pos hrun]

theorem processDockerEvent_unregister (accepts : List Char → Bool)
    (pfx : List Char) (ev : ContainerEvent) (s : WorkerState)
    (hact : ev.action = actDie ∨ ev.action = actDestroy) :
    processDockerEvent accepts pfx ev s =
      some (unregisterContainerJobs ev.containerID s).2 := by
  have hno : ¬(ev.action = actScan ∨ ev.action = actCreate ∨
      ev.action = actStart ∨ ev.action = actUpdate) := by
    rcases hact with h | h <;> rw [h] <;> decide
  rw [processDockerEvent, if_neg hno, if_pos hact]

theorem registerContainerJobs_some (accepts : List Char → Bool)
    (pfx : List Char) (c : ContainerInfo) (s : WorkerState)
    (cjs : List CronJob) (hex : extractCronJobs pfx c = some cjs) :
    registerContainerJobs accepts pfx c s =
      some (registerLoop accepts cjs
        { s with registry := (removeJobsByContainer s.registry c.id).2 }) := by
  simp only [registerContainerJobs, hex]

theorem extractCronJobs_mem {pfx : List Char} {c : ContainerInfo}
    {cjs : List CronJob} (hex : extractCronJobs pfx c = some cjs) :
    ∀ cj ∈ cjs, cj.containerID = c.id ∧ cj.containerName = c.name :=
  extractFrom_mem pfx c c.labels cjs hex

theorem extract_mkJobId {pfx : List Char} {c : ContainerInfo}
    {cjs : List CronJob} (hex : extractCronJobs pfx c = some cjs) :
    ∀ cj ∈ cjs, mkJobId cj = c.id.take 12 ++ '-' :: c.name := by
  intro cj hcj
  obtain ⟨h1, h2⟩ := extractCronJobs_mem hex cj hcj
  rw [mkJobId, h1, h2]

end Crontask

namespace Crontask

/-- C9: for the label key crontask.cronjob closed-then-open .task, which
starts with the default marker and contains both delimiters with the
close delimiter first, parseCronExpression reaches the slice
labelKey[start+2:end] with end < start+2 and hits the slice-bounds
panic (modelled by outOfBounds) instead of returning a malformed-label
error, and the extraction of a container carrying that label crashes. -/
theorem c9_swapped_delimiters_panic :
    startsWithCL defaultPfx keySwapped = true ∧
    firstIdx openTok keySwapped = some 19 ∧
    firstIdx closeTok keySwapped = some 16 ∧
    (16 : Nat) < 19 + 2 ∧
    parseCronExpression keySwapped = .outOfBounds ∧
    extractCronJobs defaultPfx contSwapped = none := by
  decide

/-- C2 failing input: a worker state holding one registered job of
container idA with dispatcher handle 1; processing a die event empties
the registry for that container but leaves the dispatcher entry with
handle 1 live (the code never removes cron entries), contradicting the
claim that the entries of removed jobs are gone. -/
theorem c2_die_leaves_dispatcher_entry :
    processDockerEvent acceptsAll defaultPfx evDieA sC2 =
      some { registry := [], cron := { entries := [(1, spec5)], nextID := 1 } } := by
  decide

/-- C1 counterexample: container contA is announced running with k = 2
valid cron labels, every schedule accepted by the dispatcher parser,
yet after one reconciliation step the registry holds exactly one job
for it, not two, and its job id is the first 12 characters of the
container id, a dash, and the container name (not a label-derived
name): both labels derive the same id, so the second add is refused. -/
theorem c1_two_labels_one_job :
    (processDockerEvent acceptsAll defaultPfx evStartA emptyState).map
        (fun s => (jobsForContainer s.registry idA).map Prod.fst) =
      some [idA.take 12 ++ '-' :: "web".data] := by
  decide

/-- C3: processing a die or destroy event removes every job of that
container from the registry, and the removal call returns exactly the
job ids the registry held for that container.  The container-id length
bound keeps the model inside the domain where the Go short-id logging
slice is defined. -/
theorem c3_death_removes_container_jobs (accepts : List Char → Bool)
    (pfx : List Char) (ev : ContainerEvent) (s : WorkerState)
    (_h12 : 12 ≤ ev.containerID.length)
    (hact : ev.action = actDie ∨ ev.action = actDestroy) :
    ∃ s1, processDockerEvent accepts pfx ev s = some s1 ∧
      jobsForContainer s1.registry ev.containerID = [] ∧
      (unregisterContainerJobs ev.containerID s).1 =
        (jobsForContainer s.registry ev.containerID).map Prod.fst ∧
      s1 = (unregisterContainerJobs ev.containerID s).2 := by
  refine ⟨(unregisterContainerJobs ev.containerID s).2,
    processDockerEvent_unregister accepts pfx ev s hact, ?_, rfl, rfl⟩
  exact jobsForContainer_filterOut s.registry ev.containerID

/-- C3 witness: the die event for container idA on a state holding one
of its jobs. -/
theorem c3_death_removes_container_jobs_witness :
    12 ≤ evDieA.containerID.length ∧
    (evDieA.action = actDie ∨ evDieA.action = actDestroy) ∧
    ∃ s1, processDockerEvent acceptsAll defaultPfx evDieA sC2 = some s1 ∧
      jobsForContainer s1.registry evDieA.containerID = [] ∧
      (unregisterContainerJobs evDieA.containerID sC2).1 =
        (jobsForContainer sC2.registry evDieA.containerID).map Prod.fst ∧
      s1 = (unregisterContainerJobs evDieA.containerID sC2).2 :=
  ⟨by decide, by decide,
    c3_death_removes_container_jobs acceptsAll defaultPfx evDieA sC2
      (by decide) (by decide)⟩


theorem registerLoop_cons_ok2 (accepts : List Char → Bool) (jid : List Char)
    (cj : CronJob) (rest : List CronJob) (reg : Registry) (cr : CronSched)
    (hall : ∀ x ∈ cj :: rest, mkJobId x = jid)
    (hnone : regLookup reg jid = none)
    (hacc : accepts cj.cronExpr = true) :
    registerLoop accepts (cj :: rest) ⟨reg, cr⟩ =
      ⟨reg ++ [(jid, { newDockerJob cj.containerID cj.containerName
          cj.cronExpr cj.task with cronEntryID := some (cr.nextID + 1) })],
        ⟨cr.entries ++ [(cr.nextID + 1, cj.cronExpr)], cr.nextID + 1⟩⟩ :=
  registerLoop_cons_ok accepts jid cj rest ⟨reg, cr⟩ hall hnone hacc

theorem registerLoop_cons_fail2 (accepts : List Char → Bool) (jid : List Char)
    (cj : CronJob) (rest : List CronJob) (reg : Registry) (cr : CronSched)
    (hall : ∀ x ∈ cj :: rest, mkJobId x = jid)
    (hnone : regLookup reg jid = none)
    (haccF : accepts cj.cronExpr = false) :
    registerLoop accepts (cj :: rest) ⟨reg, cr⟩ =
      ⟨List.filter (fun p => !(p.1 = jobName (newDockerJob cj.containerID cj.containerName cj.cronExpr cj.task) : Bool)) reg ++
        [(jid, newDockerJob cj.containerID cj.containerName cj.cronExpr
          cj.task)], cr⟩ :=
  registerLoop_cons_fail accepts jid cj rest ⟨reg, cr⟩ hall hnone haccF

theorem filter_out_single (cid k : List Char) (j : DockerJob)
    (h : j.containerID = cid) :
    List.filter (fun p => !(p.2.containerID = cid : Bool)) [(k, j)] = [] := by
  simp [h]

/-- C4: re-registration is idempotent.  For a container snapshot in
state running whose label extraction succeeds, processing the same
lifecycle event twice in a row leaves the registry with the same
entries as processing it once: the same job ids, each with the same
container id, schedule text and command (dispatcher handles excluded,
since the second pass stores a fresh handle). -/
theorem c4_reregister_idempotent (accepts : List Char → Bool)
    (pfx : List Char) (ev : ContainerEvent) (s : WorkerState)
    (cjs : List CronJob)
    (_h12 : 12 ≤ ev.container.id.length)
    (hact : ev.action = actScan ∨ ev.action = actCreate ∨
      ev.action = actStart ∨ ev.action = actUpdate)
    (hrun : ev.container.state = runningL)
    (hex : extractCronJobs pfx ev.container = some cjs) :
    ∃ s1 s2, processDockerEvent accepts pfx ev s = some s1 ∧
      processDockerEvent accepts pfx ev s1 = some s2 ∧
      regProj s2.registry = regProj s1.registry := by
  obtain ⟨sreg, scr⟩ := s
  have hstep : ∀ (reg : Registry) (cr : CronSched),
      processDockerEvent accepts pfx ev ⟨reg, cr⟩ =
        some (registerLoop accepts cjs ⟨List.filter (fun p => !(p.2.containerID = ev.container.id : Bool)) reg, cr⟩) := by
    intro reg cr
    rw [processDockerEvent_register accepts pfx ev _ hact hrun,
      registerContainerJobs_some accepts pfx ev.container _ cjs hex]
    rfl
  have hall : ∀ cj ∈ cjs, mkJobId cj =
      ev.container.id.take 12 ++ '-' :: ev.container.name :=
    extract_mkJobId hex
  rcases cjs with _ | ⟨cj, rest⟩
  · refine ⟨_, registerLoop accepts []
        ⟨(List.filter (fun p => !(p.2.containerID = ev.container.id : Bool)) (List.filter (fun p => !(p.2.containerID = ev.container.id : Bool)) sreg)), scr⟩, hstep sreg scr, ?_, ?_⟩
    · rw [registerLoop_nil]
      exact hstep _ scr
    · rw [registerLoop_nil, registerLoop_nil]
      show regProj (List.filter (fun p => !(p.2.containerID = ev.container.id : Bool)) (List.filter (fun p => !(p.2.containerID = ev.container.id : Bool)) sreg)) = regProj (List.filter (fun p => !(p.2.containerID = ev.container.id : Bool)) sreg)
      rw [filter_idem]
  · have hcid : cj.containerID = ev.container.id :=
      (extractCronJobs_mem hex cj (List.mem_cons_self cj rest)).1
    by_cases hjl : (regLookup (List.filter (fun p => !(p.2.containerID = ev.container.id : Bool)) sreg) (ev.container.id.take 12 ++ '-' :: ev.container.name)).isSome = true
    · have h1 := registerLoop_skip accepts (ev.container.id.take 12 ++ '-' :: ev.container.name)
        (cj :: rest) ⟨(List.filter (fun p => !(p.2.containerID = ev.container.id : Bool)) sreg), scr⟩ hall hjl
      refine ⟨_, registerLoop accepts (cj :: rest)
          ⟨(List.filter (fun p => !(p.2.containerID = ev.container.id : Bool)) (List.filter (fun p => !(p.2.containerID = ev.container.id : Bool)) sreg)), scr⟩, hstep sreg scr, ?_, ?_⟩
      · rw [h1]
        exact hstep _ scr
      · rw [filter_idem, h1]
    · have hnone : regLookup (List.filter (fun p => !(p.2.containerID = ev.container.id : Bool)) sreg) (ev.container.id.take 12 ++ '-' :: ev.container.name) = none :=
        Option.not_isSome_iff_eq_none.mp (by simpa using hjl)
      by_cases hacc : accepts cj.cronExpr = true
      · refine ⟨_, registerLoop accepts (cj :: rest)
            ⟨(List.filter (fun p => !(p.2.containerID = ev.container.id : Bool)) ((List.filter (fun p => !(p.2.containerID = ev.container.id : Bool)) sreg) ++ [((ev.container.id.take 12 ++ '-' :: ev.container.name), { newDockerJob cj.containerID cj.containerName cj.cronExpr cj.task with cronEntryID := some (scr.nextID + 1) })])), (⟨scr.entries ++ [(scr.nextID + 1, cj.cronExpr)], scr.nextID + 1⟩ : CronSched)⟩,
          hstep sreg scr, ?_, ?_⟩
        · rw [registerLoop_cons_ok2 accepts (ev.container.id.take 12 ++ '-' :: ev.container.name) cj rest
            (List.filter (fun p => !(p.2.containerID = ev.container.id : Bool)) sreg) scr hall hnone hacc]
          exact hstep _ _
        · rw [List.filter_append, filter_idem,
            filter_out_single ev.container.id (ev.container.id.take 12 ++ '-' :: ev.container.name)
              { newDockerJob cj.containerID cj.containerName cj.cronExpr cj.task with cronEntryID := some (scr.nextID + 1) } hcid,
            List.append_nil]
          rw [registerLoop_cons_ok2 accepts (ev.container.id.take 12 ++ '-' :: ev.container.name) cj rest
            (List.filter (fun p => !(p.2.containerID = ev.container.id : Bool)) sreg) (⟨scr.entries ++ [(scr.nextID + 1, cj.cronExpr)], scr.nextID + 1⟩ : CronSched) hall hnone hacc]
          rw [registerLoop_cons_ok2 accepts (ev.container.id.take 12 ++ '-' :: ev.container.name) cj rest
            (List.filter (fun p => !(p.2.containerID = ev.container.id : Bool)) sreg) scr hall hnone hacc]
          show regProj ((List.filter (fun p => !(p.2.containerID = ev.container.id : Bool)) sreg) ++
              [((ev.container.id.take 12 ++ '-' :: ev.container.name), { newDockerJob cj.containerID cj.containerName
                cj.cronExpr cj.task with
                  cronEntryID := some ((⟨scr.entries ++ [(scr.nextID + 1, cj.cronExpr)], scr.nextID + 1⟩ : CronSched).nextID + 1) })]) =
            regProj ((List.filter (fun p => !(p.2.containerID = ev.container.id : Bool)) sreg) ++
              [((ev.container.id.take 12 ++ '-' :: ev.container.name), { newDockerJob cj.containerID cj.containerName cj.cronExpr cj.task with cronEntryID := some (scr.nextID + 1) })])
          rw [regProj_append, regProj_append]
          rfl
      · have haccF : accepts cj.cronExpr = false := by
          cases hb : accepts cj.cronExpr
          · rfl
          · exact absurd hb hacc
        have hnoneK : regLookup (List.filter (fun p => !(p.1 = jobName (newDockerJob cj.containerID cj.containerName cj.cronExpr cj.task) : Bool)) (List.filter (fun p => !(p.2.containerID = ev.container.id : Bool)) sreg)) (ev.container.id.take 12 ++ '-' :: ev.container.name) = none :=
          regLookup_filter_none hnone _
        refine ⟨_, registerLoop accepts (cj :: rest)
            ⟨(List.filter (fun p => !(p.2.containerID = ev.container.id : Bool)) ((List.filter (fun p => !(p.1 = jobName (newDockerJob cj.containerID cj.containerName cj.cronExpr cj.task) : Bool)) (List.filter (fun p => !(p.2.containerID = ev.container.id : Bool)) sreg)) ++ [((ev.container.id.take 12 ++ '-' :: ev.container.name), newDockerJob cj.containerID cj.containerName cj.cronExpr cj.task)])), scr⟩,
          hstep sreg scr, ?_, ?_⟩
        · rw [registerLoop_cons_fail2 accepts (ev.container.id.take 12 ++ '-' :: ev.container.name) cj rest
            (List.filter (fun p => !(p.2.containerID = ev.container.id : Bool)) sreg) scr hall hnone haccF]
          exact hstep _ _
        · rw [List.filter_append,
            filter_comm (fun p => !(p.2.containerID = ev.container.id : Bool)) (fun p => !(p.1 = jobName (newDockerJob cj.containerID cj.containerName cj.cronExpr cj.task) : Bool)) (List.filter (fun p => !(p.2.containerID = ev.container.id : Bool)) sreg),
            filter_idem,
            filter_out_single ev.container.id (ev.container.id.take 12 ++ '-' :: ev.container.name)
              (newDockerJob cj.containerID cj.containerName cj.cronExpr
                cj.task) hcid,
            List.append_nil]
          rw [registerLoop_cons_fail2 accepts (ev.container.id.take 12 ++ '-' :: ev.container.name) cj rest
            (List.filter (fun p => !(p.1 = jobName (newDockerJob cj.containerID cj.containerName cj.cronExpr cj.task) : Bool)) (List.filter (fun p => !(p.2.containerID = ev.container.id : Bool)) sreg)) scr hall hnoneK haccF]
          rw [registerLoop_cons_fail2 accepts (ev.container.id.take 12 ++ '-' :: ev.container.name) cj rest
            (List.filter (fun p => !(p.2.containerID = ev.container.id : Bool)) sreg) scr hall hnone haccF]
          show regProj ((List.filter (fun p => !(p.1 = jobName (newDockerJob cj.containerID cj.containerName cj.cronExpr cj.task) : Bool)) (List.filter (fun p => !(p.1 = jobName (newDockerJob cj.containerID cj.containerName cj.cronExpr cj.task) : Bool)) (List.filter (fun p => !(p.2.containerID = ev.container.id : Bool)) sreg))) ++
              [((ev.container.id.take 12 ++ '-' :: ev.container.name), newDockerJob cj.containerID cj.containerName
                cj.cronExpr cj.task)]) =
            regProj ((List.filter (fun p => !(p.1 = jobName (newDockerJob cj.containerID cj.containerName cj.cronExpr cj.task) : Bool)) (List.filter (fun p => !(p.2.containerID = ev.container.id : Bool)) sreg)) ++
              [((ev.container.id.take 12 ++ '-' :: ev.container.name), newDockerJob cj.containerID cj.containerName
                cj.cronExpr cj.task)])
          rw [filter_idem]

/-- C4 witness: replaying the start event for contA on the empty state. -/
theorem c4_reregister_idempotent_witness :
    (12 ≤ evStartA.container.id.length ∧
      (evStartA.action = actScan ∨ evStartA.action = actCreate ∨
        evStartA.action = actStart ∨ evStartA.action = actUpdate) ∧
      evStartA.container.state = runningL ∧
      extractCronJobs defaultPfx evStartA.container = some cjsA) ∧
    ∃ s1 s2,
      processDockerEvent acceptsAll defaultPfx evStartA emptyState = some s1 ∧
      processDockerEvent acceptsAll defaultPfx evStartA s1 = some s2 ∧
      regProj s2.registry = regProj s1.registry :=
  ⟨⟨by decide, by decide, by decide, by decide⟩,
    c4_reregister_idempotent acceptsAll defaultPfx evStartA emptyState cjsA
      (by decide) (by decide) (by decide) (by decide)⟩

/-- C7: on a registry not containing the job id, add succeeds, the
following remove restores the original registry, and a second add
succeeds again; an add against a registry already holding the job id
returns false and leaves the registry unchanged. -/
theorem c7_add_remove_add (reg : Registry) (j : DockerJob)
    (hnew : regLookup reg j.id = none) :
    (addJob reg j).1 = true ∧
    (removeJob (addJob reg j).2 j.id).2 = reg ∧
    (addJob (removeJob (addJob reg j).2 j.id).2 j).1 = true ∧
    ∀ (reg2 : Registry) (j2 : DockerJob),
      (regLookup reg2 j2.id).isSome = true → addJob reg2 j2 = (false, reg2) := by
  have h1 : addJob reg j = (true, reg ++ [(j.id, j)]) := by
    simp only [addJob, hnew, Option.isSome_none, Bool.false_eq_true, if_false]
  have hsome : regLookup (reg ++ [(j.id, j)]) j.id = some j := by
    rw [regLookup_append_none hnew, regLookup, if_pos rfl]
  have h2 : removeJob (reg ++ [(j.id, j)]) j.id = (true, reg) := by
    simp only [removeJob, hsome, Option.isSome_some, if_true,
      List.filter_append, List.filter_cons, List.filter_nil]
    rw [filter_ne_key_eq_self hnew]
    simp
  refine ⟨by rw [h1], by rw [h1, h2], ?_, ?_⟩
  · rw [h1, h2]
    show (addJob reg j).1 = true
    rw [h1]
  · intro reg2 j2 h
    simp only [addJob, h, if_true]

/-- C7 witness: the add, remove, add sequence on the empty registry. -/
theorem c7_add_remove_add_witness :
    regLookup [] djA.id = none ∧
    ((addJob [] djA).1 = true ∧
      (removeJob (addJob [] djA).2 djA.id).2 = [] ∧
      (addJob (removeJob (addJob [] djA).2 djA.id).2 djA).1 = true ∧
      ∀ (reg2 : Registry) (j2 : DockerJob),
        (regLookup reg2 j2.id).isSome = true →
          addJob reg2 j2 = (false, reg2)) :=
  ⟨by decide, c7_add_remove_add [] djA (by decide)⟩

/-- C1 amended: a running container announced with at least one valid
cron label ends the reconciliation step with exactly ONE registry job
for it (not one per label), because every label of the container derives
the same job id; that id is the first 12 characters of the container id,
a dash, and the container NAME (not a label-derived name). -/
theorem c1_one_job_per_container (accepts : List Char → Bool)
    (pfx : List Char) (ev : ContainerEvent) (s : WorkerState)
    (cj : CronJob) (rest : List CronJob)
    (_h12 : 12 ≤ ev.container.id.length)
    (hact : ev.action = actScan ∨ ev.action = actCreate ∨
      ev.action = actStart ∨ ev.action = actUpdate)
    (hrun : ev.container.state = runningL)
    (hex : extractCronJobs pfx ev.container = some (cj :: rest))
    (hacc : ∀ x ∈ cj :: rest, accepts x.cronExpr = true)
    (hfresh : ∀ p ∈ s.registry, p.2.containerID ≠ ev.container.id →
      p.1 ≠ ev.container.id.take 12 ++ '-' :: ev.container.name) :
    ∃ s1, processDockerEvent accepts pfx ev s = some s1 ∧
      (jobsForContainer s1.registry ev.container.id).map Prod.fst =
        [ev.container.id.take 12 ++ '-' :: ev.container.name] := by
  obtain ⟨sreg, scr⟩ := s
  have hall : ∀ x ∈ cj :: rest, mkJobId x =
      ev.container.id.take 12 ++ '-' :: ev.container.name :=
    extract_mkJobId hex
  have hcid : cj.containerID = ev.container.id :=
    (extractCronJobs_mem hex cj (List.mem_cons_self cj rest)).1
  have hnone : regLookup (List.filter (fun p => !(p.2.containerID = ev.container.id : Bool)) sreg) (ev.container.id.take 12 ++ '-' :: ev.container.name) = none := by
    rw [regLookup_eq_none_iff]
    intro p hp
    have hmem := List.mem_filter.mp hp
    refine hfresh p hmem.1 ?_
    simpa using hmem.2
  have h1 := registerLoop_cons_ok2 accepts (ev.container.id.take 12 ++ '-' :: ev.container.name) cj rest
    (List.filter (fun p => !(p.2.containerID = ev.container.id : Bool)) sreg) scr hall hnone (hacc cj (List.mem_cons_self cj rest))
  refine ⟨registerLoop accepts (cj :: rest)
    ⟨List.filter (fun p => !(p.2.containerID = ev.container.id : Bool)) sreg,
      scr⟩, ?_, ?_⟩
  · rw [processDockerEvent_register accepts pfx ev _ hact hrun,
      registerContainerJobs_some accepts pfx ev.container _ (cj :: rest) hex]
    rfl
  · show (jobsForContainer (registerLoop accepts (cj :: rest)
      ⟨(List.filter (fun p => !(p.2.containerID = ev.container.id : Bool)) sreg), scr⟩).registry ev.container.id).map Prod.fst = _
    rw [h1]
    show (List.filter (fun p => (p.2.containerID = ev.container.id : Bool))
        ((List.filter (fun p => !(p.2.containerID = ev.container.id : Bool)) sreg) ++ [((ev.container.id.take 12 ++ '-' :: ev.container.name), { newDockerJob cj.containerID cj.containerName cj.cronExpr cj.task with cronEntryID := some (scr.nextID + 1) })])).map Prod.fst = _
    rw [List.filter_append]
    rw [show List.filter
        (fun p => (p.2.containerID = ev.container.id : Bool))
        (List.filter (fun p => !(p.2.containerID = ev.container.id : Bool)) sreg) = [] from
      jobsForContainer_filterOut sreg ev.container.id]
    simp [newDockerJob, hcid]

/-- C1 amended witness: contA carries two valid cron labels, the step
leaves one job keyed by short id and container name. -/
theorem c1_one_job_per_container_witness :
    (12 ≤ evStartA.container.id.length ∧
      (evStartA.action = actScan ∨ evStartA.action = actCreate ∨
        evStartA.action = actStart ∨ evStartA.action = actUpdate) ∧
      evStartA.container.state = runningL ∧
      extractCronJobs defaultPfx evStartA.container = some (cjA :: restA) ∧
      (∀ x ∈ cjA :: restA, acceptsAll x.cronExpr = true) ∧
      (∀ p ∈ emptyState.registry,
        p.2.containerID ≠ evStartA.container.id →
        p.1 ≠ evStartA.container.id.take 12 ++ '-' ::
          evStartA.container.name)) ∧
    ∃ s1, processDockerEvent acceptsAll defaultPfx evStartA emptyState =
        some s1 ∧
      (jobsForContainer s1.registry evStartA.container.id).map Prod.fst =
        [evStartA.container.id.take 12 ++ '-' :: evStartA.container.name] :=
  ⟨⟨by decide, by decide, by decide, by decide, by decide, by decide⟩,
    c1_one_job_per_container acceptsAll defaultPfx evStartA emptyState
      cjA restA (by decide) (by decide) (by decide) (by decide) (by decide)
      (by decide)⟩

theorem extractFrom_labels_irrel (pfx cid cname cstate : List Char)
    (l1 l2 : List (List Char × List Char)) :
    ∀ ls, extractFrom pfx ⟨cid, cname, cstate, l1⟩ ls =
      extractFrom pfx ⟨cid, cname, cstate, l2⟩ ls
  | [] => rfl
  | (k, v) :: rest => by
      simp only [extractFrom,
        extractFrom_labels_irrel pfx cid cname cstate l1 l2 rest]

theorem extractFrom_skip (pfx : List Char) (c : ContainerInfo)
    (badKey badVal : List Char)
    (hbad : parseCronExpression badKey = .missingOpen ∨
      parseCronExpression badKey = .missingClose) :
    ∀ pre post, extractFrom pfx c (pre ++ (badKey, badVal) :: post) =
      extractFrom pfx c (pre ++ post)
  | [], post => by
      cases hpr : startsWithCL pfx badKey
      · simp only [List.nil_append, extractFrom, hpr, Bool.false_eq_true,
          if_false]
      · rcases hbad with h | h <;>
          simp only [List.nil_append, extractFrom, hpr, if_true, h]
  | (k, v) :: pre, post => by
      have ih := extractFrom_skip pfx c badKey badVal hbad pre post
      simp only [List.cons_append, extractFrom, List.append_eq]
      simp only [ih]

/-- C5: a prefixed label key lacking the open delimiter fails with the
missing-open error; one containing the open delimiter but lacking the
close delimiter fails with the missing-close error; in either case the
label is skipped and extraction over the remaining labels of the same
container is unchanged, so well-formed labels still yield their jobs. -/
theorem c5_malformed_label_skipped (pfx : List Char)
    (cid cname cstate : List Char)
    (pre post : List (List Char × List Char)) (badKey badVal : List Char)
    (_hpr : startsWithCL pfx badKey = true)
    (hbad : firstIdx openTok badKey = none ∨
      firstIdx closeTok badKey = none) :
    (firstIdx openTok badKey = none →
      parseCronExpression badKey = .missingOpen) ∧
    (firstIdx openTok badKey ≠ none → firstIdx closeTok badKey = none →
      parseCronExpression badKey = .missingClose) ∧
    extractCronJobs pfx
        ⟨cid, cname, cstate, pre ++ (badKey, badVal) :: post⟩ =
      extractCronJobs pfx ⟨cid, cname, cstate, pre ++ post⟩ := by
  have hparse : parseCronExpression badKey = .missingOpen ∨
      parseCronExpression badKey = .missingClose := by
    rcases hbad with h | h
    · left
      simp [parseCronExpression, h]
    · cases hi : firstIdx openTok badKey with
      | none => left; simp [parseCronExpression, hi]
      | some st => right; simp [parseCronExpression, hi, h]
  refine ⟨?_, ?_, ?_⟩
  · intro h
    simp [parseCronExpression, h]
  · intro ho hc
    cases hi : firstIdx openTok badKey with
    | none => exact absurd hi ho
    | some st => simp [parseCronExpression, hi, hc]
  · show extractFrom pfx ⟨cid, cname, cstate, pre ++ (badKey, badVal) :: post⟩
        (pre ++ (badKey, badVal) :: post) =
      extractFrom pfx ⟨cid, cname, cstate, pre ++ post⟩ (pre ++ post)
    rw [extractFrom_skip pfx _ badKey badVal hparse pre post]
    exact extractFrom_labels_irrel pfx cid cname cstate _ _ (pre ++ post)

/-- C5 witness: a missing-open key and a missing-close key alongside the
well-formed key5 on one container. -/
theorem c5_malformed_label_skipped_witness :
    (startsWithCL defaultPfx keyNoOpen = true ∧
      (firstIdx openTok keyNoOpen = none ∨
        firstIdx closeTok keyNoOpen = none) ∧
      ((firstIdx openTok keyNoOpen = none →
        parseCronExpression keyNoOpen = .missingOpen) ∧
      (firstIdx openTok keyNoOpen ≠ none →
        firstIdx closeTok keyNoOpen = none →
        parseCronExpression keyNoOpen = .missingClose) ∧
      extractCronJobs defaultPfx
          ⟨idA, "web".data, runningL,
            [] ++ (keyNoOpen, "nope".data) :: [(key5, "ok".data)]⟩ =
        extractCronJobs defaultPfx
          ⟨idA, "web".data, runningL, [] ++ [(key5, "ok".data)]⟩)) ∧
    (startsWithCL defaultPfx keyNoClose = true ∧
      (firstIdx openTok keyNoClose = none ∨
        firstIdx closeTok keyNoClose = none) ∧
      ((firstIdx openTok keyNoClose = none →
        parseCronExpression keyNoClose = .missingOpen) ∧
      (firstIdx openTok keyNoClose ≠ none →
        firstIdx closeTok keyNoClose = none →
        parseCronExpression keyNoClose = .missingClose) ∧
      extractCronJobs defaultPfx
          ⟨idA, "web".data, runningL,
            [(key5, "ok".data)] ++ (keyNoClose, "nope".data) :: []⟩ =
        extractCronJobs defaultPfx
          ⟨idA, "web".data, runningL, [(key5, "ok".data)] ++ []⟩)) :=
  ⟨⟨by decide, by decide,
    c5_malformed_label_skipped defaultPfx idA ("web".data) runningL []
      [(key5, "ok".data)] keyNoOpen ("nope".data) (by decide) (by decide)⟩,
  ⟨by decide, by decide,
    c5_malformed_label_skipped defaultPfx idA ("web".data) runningL
      [(key5, "ok".data)] [] keyNoClose ("nope".data) (by decide)
      (by decide)⟩⟩

/-- C6: for a label key whose open delimiter occurs at index st and
whose close delimiter occurs at index en with st + 2 ≤ en, the schedule
text is the slice strictly between the delimiters, the parse fails with
the invalid-expression error exactly when that text has fewer than five
white-space separated fields, and succeeds with that text otherwise. -/
theorem c6_field_count_gate (key : List Char) (st en : Nat)
    (ho : firstIdx openTok key = some st)
    (hc : firstIdx closeTok key = some en)
    (hle : st + 2 ≤ en) :
    (parseCronExpression key = .invalidExpr ((key.take en).drop (st + 2)) ↔
      (fieldsCL ((key.take en).drop (st + 2))).length < 5) ∧
    (5 ≤ (fieldsCL ((key.take en).drop (st + 2))).length →
      parseCronExpression key = .ok ((key.take en).drop (st + 2))) := by
  have hnlt : ¬ en < st + 2 := by omega
  constructor
  · by_cases h5 : (fieldsCL ((key.take en).drop (st + 2))).length < 5
    · simp [parseCronExpression, ho, hc, hnlt, h5]
    · simp [parseCronExpression, ho, hc, hnlt, h5]
  · intro h5
    have h5n : ¬ (fieldsCL ((key.take en).drop (st + 2))).length < 5 := by
      omega
    simp [parseCronExpression, ho, hc, hnlt, h5n]

/-- C6 witness: the four-field key4 is rejected with the invalid
expression error while the five-field key5 parses. -/
theorem c6_field_count_gate_witness :
    (firstIdx openTok key4 = some 16 ∧ firstIdx closeTok key4 = some 25 ∧
      16 + 2 ≤ 25 ∧
      parseCronExpression key4 = .invalidExpr ((key4.take 25).drop (16 + 2))) ∧
    (firstIdx openTok key5 = some 16 ∧ firstIdx closeTok key5 = some 27 ∧
      16 + 2 ≤ 27 ∧
      parseCronExpression key5 = .ok ((key5.take 27).drop (16 + 2))) :=
  ⟨⟨by decide, by decide, by decide,
    (c6_field_count_gate key4 16 25 (by decide) (by decide)
      (by decide)).1.mpr (by decide)⟩,
  ⟨by decide, by decide, by decide,
    (c6_field_count_gate key5 16 27 (by decide) (by decide)
      (by decide)).2 (by decide)⟩⟩

theorem inChain_self : ∀ e : GoErr, inChain e e = true
  | .cause m => by simp [inChain]
  | .wrap m inner => by simp [inChain]

theorem tryLoop_last (env : DockerEnv) :
    ∀ (ps : List (List Char)) (q : List Char) (last : Option GoErr),
      (∀ p ∈ ps ++ [q], (attemptCause env p).isSome = true) →
      ∃ cL, attemptCause env q = some cL ∧
        tryLoop env (ps ++ [q]) last = .error (.wrap tryFailMsg cL)
  | [], q, last, hall => by
      rcases hnc : env.newClientErr q with _ | e
      · rcases hp : env.pingErr q with _ | e2
        · have hq := hall q (by simp)
          rw [attemptCause, hnc, hp] at hq
          exact absurd hq (by simp)
        · refine ⟨e2, by rw [attemptCause, hnc]; exact hp, ?_⟩
          simp only [List.nil_append, tryLoop, hnc, hp]
      · refine ⟨e, by rw [attemptCause, hnc], ?_⟩
        simp only [List.nil_append, tryLoop, hnc]
  | p :: ps, q, last, hall => by
      have hall2 : ∀ r ∈ ps ++ [q], (attemptCause env r).isSome = true :=
        fun r hr => hall r (by simp at hr ⊢; tauto)
      rcases hnc : env.newClientErr p with _ | e
      · rcases hpe : env.pingErr p with _ | e2
        · have hp := hall p (by simp)
          rw [attemptCause, hnc, hpe] at hp
          exact absurd hp (by simp)
        · obtain ⟨cL, h1, h2⟩ := tryLoop_last env ps q (some e2) hall2
          refine ⟨cL, h1, ?_⟩
          simp only [List.cons_append, tryLoop, hnc, hpe]
          exact h2
      · obtain ⟨cL, h1, h2⟩ := tryLoop_last env ps q (some e) hall2
        refine ⟨cL, h1, ?_⟩
        simp only [List.cons_append, tryLoop, hnc]
        exact h2

theorem tryAlt_all_fail (env : DockerEnv)
    (h2 : ∀ p ∈ alternativePaths, (attemptCause env p).isSome = true) :
    ∃ cL, attemptCause env ("unix:///var/run/docker.sock".data) = some cL ∧
      tryAlternativeSocketPaths env = .error (.wrap tryFailMsg cL) := by
  obtain ⟨cL, h1, h3⟩ := tryLoop_last env (alternativePaths.take 4)
    ("unix:///var/run/docker.sock".data) none (fun p hp => h2 p hp)
  exact ⟨cL, h1, h3⟩

/-- C8: when the caller-supplied socket fails (client construction or
liveness probe) and every entry of the fallback list fails as well,
connection fails with an error whose unwrap chain contains the cause
reported by the last candidate attempted: the first host's construction
error when construction failed there (the walk never starts), otherwise
the failure cause of the final fallback path. -/
theorem c8_connect_surfaces_last_cause (env : DockerEnv)
    (goos socketPath : List Char)
    (h1 : (attemptCause env (firstHost goos socketPath)).isSome = true)
    (h2 : ∀ p ∈ alternativePaths, (attemptCause env p).isSome = true) :
    ∃ e cL, newMonitorConnect env goos socketPath = .error e ∧
      lastAttemptedCause env goos socketPath = some cL ∧
      inChain cL e = true := by
  rcases hnc : env.newClientErr (firstHost goos socketPath) with _ | e0
  · have hping : ∃ pe, env.pingErr (firstHost goos socketPath) = some pe := by
      rw [attemptCause, hnc] at h1
      exact Option.isSome_iff_exists.mp h1
    obtain ⟨pe, hpe⟩ := hping
    obtain ⟨cL, hcL, htry⟩ := tryAlt_all_fail env h2
    refine ⟨.wrap connectFailMsg (.wrap tryFailMsg cL), cL, ?_, ?_, ?_⟩
    · simp only [newMonitorConnect, hnc, hpe, htry]
    · rw [lastAttemptedCause, hnc]
      exact hcL
    · simp [inChain, inChain_self]
  · refine ⟨.wrap createFailMsg e0, e0, ?_, ?_, ?_⟩
    · simp only [newMonitorConnect, hnc]
    · simp only [lastAttemptedCause, hnc]
    · simp [inChain, inChain_self]

/-- C8 witness: with every ping failing (reporting the probed path as
cause) and every client constructing, connection on the default linux
socket fails surfacing the last fallback path cause. -/
theorem c8_connect_surfaces_last_cause_witness :
    (attemptCause envW (firstHost ("linux".data) [])).isSome = true ∧
    (∀ p ∈ alternativePaths, (attemptCause envW p).isSome = true) ∧
    ∃ e cL, newMonitorConnect envW ("linux".data) [] = .error e ∧
      lastAttemptedCause envW ("linux".data) [] = some cL ∧
      inChain cL e = true :=
  ⟨by decide, by decide,
    c8_connect_surfaces_last_cause envW ("linux".data) [] (by decide)
      (by decide)⟩

/-- C10: when a job is admitted to the registry but its schedule text
is rejected by the dispatcher parser, the rollback calls RemoveJob with
the Name() string, the literal docker- prefix prepended to the job id,
while the registry is keyed on the bare id; the removal therefore
returns false and leaves the registry unchanged, the job stays in the
registry, and no dispatcher entry exists for it. -/
theorem c10_rollback_uses_wrong_key (accepts : List Char → Bool)
    (pfx : List Char) (c : ContainerInfo) (s : WorkerState)
    (cj : CronJob) (rest : List CronJob)
    (_h12 : 12 ≤ c.id.length)
    (hex : extractCronJobs pfx c = some (cj :: rest))
    (haccF : accepts cj.cronExpr = false)
    (hfresh : ∀ p ∈ s.registry, p.2.containerID ≠ c.id →
      p.1 ≠ c.id.take 12 ++ '-' :: c.name)
    (hdkey : ∀ p ∈ s.registry, p.1 ≠ jobName (newDockerJob cj.containerID
      cj.containerName cj.cronExpr cj.task)) :
    ∃ s1, registerContainerJobs accepts pfx c s = some s1 ∧
      regLookup s1.registry (c.id.take 12 ++ '-' :: c.name) =
        some (newDockerJob cj.containerID cj.containerName cj.cronExpr
          cj.task) ∧
      (newDockerJob cj.containerID cj.containerName cj.cronExpr
        cj.task).cronEntryID = none ∧
      s1.cron = s.cron ∧
      jobName (newDockerJob cj.containerID cj.containerName cj.cronExpr
        cj.task) = "docker-".data ++ (newDockerJob cj.containerID
        cj.containerName cj.cronExpr cj.task).id ∧
      removeJob s1.registry (jobName (newDockerJob cj.containerID
        cj.containerName cj.cronExpr cj.task)) = (false, s1.registry) := by
  obtain ⟨sreg, scr⟩ := s
  have hall : ∀ x ∈ cj :: rest, mkJobId x = c.id.take 12 ++ '-' :: c.name :=
    extract_mkJobId hex
  have hid2 : (newDockerJob cj.containerID cj.containerName cj.cronExpr cj.task).id = c.id.take 12 ++ '-' :: c.name := by
    rw [newDockerJob_id]
    exact hall cj (List.mem_cons_self cj rest)
  have hnone : regLookup (List.filter (fun p => !(p.2.containerID = c.id : Bool)) sreg) (c.id.take 12 ++ '-' :: c.name) = none := by
    rw [regLookup_eq_none_iff]
    intro p hp
    have hmem := List.mem_filter.mp hp
    refine hfresh p hmem.1 ?_
    simpa using hmem.2
  have hKnone_s : regLookup sreg (jobName (newDockerJob cj.containerID cj.containerName cj.cronExpr cj.task)) = none :=
    (regLookup_eq_none_iff sreg _).mpr hdkey
  have hKnone : regLookup (List.filter (fun p => !(p.2.containerID = c.id : Bool)) sreg) (jobName (newDockerJob cj.containerID cj.containerName cj.cronExpr cj.task)) = none :=
    regLookup_filter_none hKnone_s _
  have hne : (c.id.take 12 ++ '-' :: c.name) ≠ jobName (newDockerJob cj.containerID cj.containerName cj.cronExpr cj.task) := by
    intro h
    rw [jobName, hid2] at h
    exact append_left_ne (by decide) (c.id.take 12 ++ '-' :: c.name) h.symm
  have h1 := registerLoop_cons_fail2 accepts (c.id.take 12 ++ '-' :: c.name) cj rest
    (List.filter (fun p => !(p.2.containerID = c.id : Bool)) sreg) scr hall hnone haccF
  have hflt : List.filter
      (fun p => !(p.1 = jobName (newDockerJob cj.containerID cj.containerName cj.cronExpr cj.task) : Bool)) (List.filter (fun p => !(p.2.containerID = c.id : Bool)) sreg) =
      (List.filter (fun p => !(p.2.containerID = c.id : Bool)) sreg) := filter_ne_key_eq_self hKnone
  have hwhole : regLookup ((List.filter (fun p => !(p.2.containerID = c.id : Bool)) sreg) ++ [((c.id.take 12 ++ '-' :: c.name), (newDockerJob cj.containerID cj.containerName cj.cronExpr cj.task))])
      (jobName (newDockerJob cj.containerID cj.containerName cj.cronExpr cj.task)) = none := by
    rw [regLookup_append_none hKnone, regLookup, if_neg hne]
    rfl
  refine ⟨⟨(List.filter (fun p => !(p.2.containerID = c.id : Bool)) sreg) ++ [((c.id.take 12 ++ '-' :: c.name), (newDockerJob cj.containerID cj.containerName cj.cronExpr cj.task))], scr⟩, ?_, ?_, rfl, rfl, rfl, ?_⟩
  · rw [registerContainerJobs_some accepts pfx c _ (cj :: rest) hex]
    show some (registerLoop accepts (cj :: rest) ⟨(List.filter (fun p => !(p.2.containerID = c.id : Bool)) sreg), scr⟩) = _
    rw [h1, hflt]
  · show regLookup ((List.filter (fun p => !(p.2.containerID = c.id : Bool)) sreg) ++ [((c.id.take 12 ++ '-' :: c.name), (newDockerJob cj.containerID cj.containerName cj.cronExpr cj.task))]) (c.id.take 12 ++ '-' :: c.name) = some (newDockerJob cj.containerID cj.containerName cj.cronExpr cj.task)
    rw [regLookup_append_none hnone, regLookup, if_pos rfl]
  · show removeJob ((List.filter (fun p => !(p.2.containerID = c.id : Bool)) sreg) ++ [((c.id.take 12 ++ '-' :: c.name), (newDockerJob cj.containerID cj.containerName cj.cronExpr cj.task))]) (jobName (newDockerJob cj.containerID cj.containerName cj.cronExpr cj.task)) = _
    simp only [removeJob, hwhole, Option.isSome_none, Bool.false_eq_true,
      if_false]

/-- C10 witness: contA with a dispatcher parser rejecting everything;
the first extracted job is admitted, the rollback removal fails, the
job remains with no dispatcher entry. -/
theorem c10_rollback_uses_wrong_key_witness :
    (12 ≤ contA.id.length ∧
      extractCronJobs defaultPfx contA = some (cjA :: restA) ∧
      acceptsNone cjA.cronExpr = false ∧
      (∀ p ∈ emptyState.registry, p.2.containerID ≠ contA.id →
        p.1 ≠ contA.id.take 12 ++ '-' :: contA.name) ∧
      (∀ p ∈ emptyState.registry, p.1 ≠ jobName (newDockerJob
        cjA.containerID cjA.containerName cjA.cronExpr cjA.task))) ∧
    ∃ s1, registerContainerJobs acceptsNone defaultPfx contA emptyState =
        some s1 ∧
      regLookup s1.registry (contA.id.take 12 ++ '-' :: contA.name) =
        some (newDockerJob cjA.containerID cjA.containerName cjA.cronExpr
          cjA.task) ∧
      (newDockerJob cjA.containerID cjA.containerName cjA.cronExpr
        cjA.task).cronEntryID = none ∧
      s1.cron = emptyState.cron ∧
      jobName (newDockerJob cjA.containerID cjA.containerName cjA.cronExpr
        cjA.task) = "docker-".data ++ (newDockerJob cjA.containerID
        cjA.containerName cjA.cronExpr cjA.task).id ∧
      removeJob s1.registry (jobName (newDockerJob cjA.containerID
        cjA.containerName cjA.cronExpr cjA.task)) = (false, s1.registry) :=
  ⟨⟨by decide, by decide, by decide, by decide, by decide⟩,
    c10_rollback_uses_wrong_key acceptsNone defaultPfx contA emptyState
      cjA restA (by decide) (by decide) (by decide) (by decide) (by decide)⟩

end Crontask
